import Mathlib

/-!
Shallow embedding of the cache-cost simulation core of the `ai` benchmarking
harness: `TokenCache` (src/lib/token-cache.ts) and the aggregate simulator
`simulateCacheSavings` / `calculateTotalCost` (src/lib/utils.ts).

JavaScript numbers are modelled as exact rationals (`ℚ`); token counts and
monetary rates alike are plain `number`s in the source.  Optional pricing
fields (`cacheReadInputTokenCost?`, `cacheCreationInputTokenCost?`) become
`Option ℚ`, where `none` is TypeScript `undefined`.  The `throw` in
`simulateCacheSavings` becomes `Except String`.
-/

namespace AiBench

/-- The pricing table returned by `extractPricingFromGatewayModel`
(src/lib/pricing.ts): per-token monetary rates.  The two cache rates are
optional in the TypeScript type; the fields used by the embedded code are
`outputCostPerToken`, `cacheReadInputTokenCost`, `cacheCreationInputTokenCost`
and (for the no-cache baseline) the flat input rate. -/
structure Pricing where
  inputCostPerToken : ℚ
  outputCostPerToken : ℚ
  cacheReadInputTokenCost : Option ℚ
  cacheCreationInputTokenCost : Option ℚ
deriving DecidableEq

/-- Per-call usage record (interface `Usage` in src/lib/report.ts). -/
structure Usage where
  inputTokens : ℚ
  outputTokens : ℚ
  totalTokens : ℚ
  cachedInputTokens : ℚ
deriving DecidableEq

/-- One model invocation inside a test run; only its `usage` field is read by
the cost core. -/
structure Step where
  usage : Usage
deriving DecidableEq

/-- One full conversation: an ordered sequence of steps
(`SingleTestResult` in src/lib/report.ts). -/
structure SingleTestResult where
  steps : List Step
deriving DecidableEq

/-- The `TokenCache` class state (src/lib/token-cache.ts): private fields
`currentTokens`, `totalCachedTokens`, `messages`, `pricing`,
`totalOutputTokens`. -/
structure TokenCache where
  currentTokens : ℚ
  totalCachedTokens : ℚ
  messages : List (String × ℚ)
  pricing : Option Pricing
  totalOutputTokens : ℚ
deriving DecidableEq

/-- The `TokenCache` constructor: `currentTokens = tokens`, accumulators at
zero, `pricing = pricing ?? null`. -/
def TokenCache.create (tokens : ℚ) (pricing : Option Pricing) : TokenCache :=
  { currentTokens := tokens
    totalCachedTokens := 0
    messages := []
    pricing := pricing
    totalOutputTokens := 0 }

/-- `TokenCache.addMessage(message, tokens, outputTokens = 0)`: first credits
the current context to `totalCachedTokens`, then extends `currentTokens`,
accumulates output tokens and appends a log entry. -/
def TokenCache.addMessage (c : TokenCache) (message : String) (tokens : ℚ)
    (outputTokens : ℚ) : TokenCache :=
  { c with
    totalCachedTokens := c.totalCachedTokens + c.currentTokens
    currentTokens := c.currentTokens + tokens
    totalOutputTokens := c.totalOutputTokens + outputTokens
    messages := c.messages ++ [(message, tokens)] }

/-- The snapshot returned by `TokenCache.getCacheStats()`. -/
structure CacheStats where
  totalCachedTokens : ℚ
  currentContextTokens : ℚ
  messageCount : ℕ
deriving DecidableEq

/-- `TokenCache.getCacheStats()`: a read-only snapshot of the state. -/
def TokenCache.getCacheStats (c : TokenCache) : CacheStats :=
  { totalCachedTokens := c.totalCachedTokens
    currentContextTokens := c.currentTokens
    messageCount := c.messages.length }

/-- The breakdown returned by `TokenCache.calculateSimulatedCost()`. -/
structure SimulatedCost where
  simulatedCost : ℚ
  cacheReadCost : ℚ
  cacheWriteCost : ℚ
  outputCost : ℚ
deriving DecidableEq

/-- `TokenCache.calculateSimulatedCost()`.  The guard is the JavaScript
truthiness test `!this.pricing || !this.pricing.cacheReadInputTokenCost ||
!this.pricing.cacheCreationInputTokenCost`: a rate that is `undefined`
(`none`) or `0` (`some 0`) is falsy and yields the all-zero breakdown. -/
def TokenCache.calculateSimulatedCost (c : TokenCache) : SimulatedCost :=
  match c.pricing with
  | none => { simulatedCost := 0, cacheReadCost := 0, cacheWriteCost := 0, outputCost := 0 }
  | some p =>
    match p.cacheReadInputTokenCost, p.cacheCreationInputTokenCost with
    | some cacheReadRate, some cacheWriteRate =>
      if cacheReadRate = 0 ∨ cacheWriteRate = 0 then
        { simulatedCost := 0, cacheReadCost := 0, cacheWriteCost := 0, outputCost := 0 }
      else
        let cacheReadCost := c.totalCachedTokens * cacheReadRate
        let cacheWriteCost := c.currentTokens * cacheWriteRate
        let outputCost := c.totalOutputTokens * p.outputCostPerToken
        { simulatedCost := cacheReadCost + cacheWriteCost + outputCost
          cacheReadCost := cacheReadCost
          cacheWriteCost := cacheWriteCost
          outputCost := outputCost }
    | _, _ =>
      { simulatedCost := 0, cacheReadCost := 0, cacheWriteCost := 0, outputCost := 0 }

/-- Result of the spec-modelled `calculateCost` helper. -/
structure CostResult where
  inputCost : ℚ
  outputCost : ℚ
  totalCost : ℚ
deriving DecidableEq

/-- Modelled from the spec: `calculateCost` lives in src/lib/pricing.ts, which
is not among the provided sources; only its import and call sites are.  The
spec describes the no-cache baseline as summing tokens and applying flat
input/output rates, so the helper charges `inputTokens` at the flat input rate
and `outputTokens` at the output rate and totals the two. -/
def calculateCost (p : Pricing) (inputTokens outputTokens : ℚ) : CostResult :=
  let inputCost := inputTokens * p.inputCostPerToken
  let outputCost := outputTokens * p.outputCostPerToken
  { inputCost := inputCost, outputCost := outputCost, totalCost := inputCost + outputCost }

/-- The shape returned by `calculateTotalCost` (`TotalCostInfo`). -/
structure TotalCostInfo where
  inputCost : ℚ
  outputCost : ℚ
  totalCost : ℚ
  inputTokens : ℚ
  outputTokens : ℚ
deriving DecidableEq

/-- `calculateTotalCost(tests, pricing)` (src/lib/utils.ts): sums the
input/output tokens of every step of every test and applies flat rates. -/
def calculateTotalCost (tests : List SingleTestResult) (p : Pricing) : TotalCostInfo :=
  let totals := tests.foldl
    (fun (acc : ℚ × ℚ) test =>
      test.steps.foldl
        (fun (acc2 : ℚ × ℚ) step =>
          (acc2.1 + step.usage.inputTokens, acc2.2 + step.usage.outputTokens))
        acc)
    (0, 0)
  let costResult := calculateCost p totals.1 totals.2
  { inputCost := costResult.inputCost
    outputCost := costResult.outputCost
    totalCost := costResult.totalCost
    inputTokens := totals.1
    outputTokens := totals.2 }

/-- The aggregate returned by `simulateCacheSavings` (`CacheSimulationResult`
in src/lib/utils.ts). -/
structure CacheSimulationResult where
  simulatedCostWithCache : ℚ
  simulatedInputCost : ℚ
  simulatedOutputCost : ℚ
  cacheHits : ℚ
  cacheWriteTokens : ℚ
  outputTokens : ℚ
deriving DecidableEq

/-- The running accumulators of `simulateCacheSavings`: `totalCacheHits`,
`totalCacheWriteTokens`, `totalOutputTokens`, `simulatedInputCost`,
`simulatedOutputCost`. -/
structure SimAcc where
  totalCacheHits : ℚ
  totalCacheWriteTokens : ℚ
  totalOutputTokens : ℚ
  simulatedInputCost : ℚ
  simulatedOutputCost : ℚ
deriving DecidableEq

/-- The inner loop of `simulateCacheSavings` over the steps of index ≥ 1 of
one test: reads `currentContextTokens` via `getCacheStats`, clamps the new
tokens at zero, accumulates hits/writes/outputs and the per-step costs, then
advances the cache with `addMessage`. -/
def simSteps (p : Pricing) (cacheReadRate cacheWriteRate : ℚ) :
    TokenCache → SimAcc → List Step → ℕ → TokenCache × SimAcc
  | cache, acc, [], _ => (cache, acc)
  | cache, acc, step :: rest, i =>
    let stats := cache.getCacheStats
    let cachedPortion := stats.currentContextTokens
    let newTokens := max 0 (step.usage.inputTokens - cachedPortion)
    let acc' : SimAcc :=
      { totalCacheHits := acc.totalCacheHits + cachedPortion
        totalCacheWriteTokens := acc.totalCacheWriteTokens + newTokens
        totalOutputTokens := acc.totalOutputTokens + step.usage.outputTokens
        simulatedInputCost := acc.simulatedInputCost + cachedPortion * cacheReadRate
          + newTokens * cacheWriteRate
        simulatedOutputCost := acc.simulatedOutputCost
          + step.usage.outputTokens * p.outputCostPerToken }
    let cache' := cache.addMessage ("step-" ++ toString i) newTokens step.usage.outputTokens
    simSteps p cacheReadRate cacheWriteRate cache' acc' rest (i + 1)

/-- The body of `simulateCacheSavings` for one test: skips a test with no
steps, seeds a fresh `TokenCache` with the first step's input, records the
first step's full input as a cache write at the write rate, then processes
the remaining steps with `simSteps`. -/
def simTest (p : Pricing) (cacheReadRate cacheWriteRate : ℚ)
    (acc : SimAcc) (test : SingleTestResult) : SimAcc :=
  match test.steps with
  | [] => acc
  | firstStep :: rest =>
    let cache := TokenCache.create firstStep.usage.inputTokens (some p)
    let acc1 : SimAcc :=
      { totalCacheHits := acc.totalCacheHits
        totalCacheWriteTokens := acc.totalCacheWriteTokens + firstStep.usage.inputTokens
        totalOutputTokens := acc.totalOutputTokens + firstStep.usage.outputTokens
        simulatedInputCost := acc.simulatedInputCost
          + firstStep.usage.inputTokens * cacheWriteRate
        simulatedOutputCost := acc.simulatedOutputCost
          + firstStep.usage.outputTokens * p.outputCostPerToken }
    let cache1 := cache.addMessage "step-0" 0 firstStep.usage.outputTokens
    (simSteps p cacheReadRate cacheWriteRate cache1 acc1 rest 1).2

/-- `simulateCacheSavings(tests, pricing)` (src/lib/utils.ts): throws a
configuration error when either cache rate is `undefined` (the guard compares
against `undefined` only, so a defined rate of `0` passes), otherwise folds
`simTest` over the tests starting from all-zero accumulators. -/
def simulateCacheSavings (tests : List SingleTestResult) (p : Pricing) :
    Except String CacheSimulationResult :=
  match p.cacheReadInputTokenCost, p.cacheCreationInputTokenCost with
  | some cacheReadRate, some cacheWriteRate =>
    let acc := tests.foldl (simTest p cacheReadRate cacheWriteRate)
      { totalCacheHits := 0
        totalCacheWriteTokens := 0
        totalOutputTokens := 0
        simulatedInputCost := 0
        simulatedOutputCost := 0 }
    .ok
      { simulatedCostWithCache := acc.simulatedInputCost + acc.simulatedOutputCost
        simulatedInputCost := acc.simulatedInputCost
        simulatedOutputCost := acc.simulatedOutputCost
        cacheHits := acc.totalCacheHits
        cacheWriteTokens := acc.totalCacheWriteTokens
        outputTokens := acc.totalOutputTokens }
  | _, _ =>
    .error "Cache pricing is required: cacheReadInputTokenCost and cacheCreationInputTokenCost must be defined"

end AiBench

namespace AiBench

/-! ### Helper lemmas shared by several claims -/

/-- Componentwise sum of simulator accumulators, used to state and prove
additivity of the aggregation. -/
def SimAcc.add (a b : SimAcc) : SimAcc :=
  { totalCacheHits := a.totalCacheHits + b.totalCacheHits
    totalCacheWriteTokens := a.totalCacheWriteTokens + b.totalCacheWriteTokens
    totalOutputTokens := a.totalOutputTokens + b.totalOutputTokens
    simulatedInputCost := a.simulatedInputCost + b.simulatedInputCost
    simulatedOutputCost := a.simulatedOutputCost + b.simulatedOutputCost }

/-- The all-zero accumulator the simulator starts from. -/
def SimAcc.zero : SimAcc :=
  { totalCacheHits := 0
    totalCacheWriteTokens := 0
    totalOutputTokens := 0
    simulatedInputCost := 0
    simulatedOutputCost := 0 }

lemma SimAcc.add_zero (a : SimAcc) : a.add SimAcc.zero = a := by
  cases a; simp [SimAcc.add, SimAcc.zero]

lemma SimAcc.zero_add (a : SimAcc) : SimAcc.zero.add a = a := by
  cases a; simp [SimAcc.add, SimAcc.zero]

lemma SimAcc.add_assoc (a b c : SimAcc) : (a.add b).add c = a.add (b.add c) := by
  cases a; cases b; cases c
  simp only [SimAcc.add, SimAcc.mk.injEq]
  refine ⟨by ring, by ring, by ring, by ring, by ring⟩

end AiBench

namespace AiBench

lemma simSteps_fst (p : Pricing) (rr wr : ℚ) :
    ∀ (l : List Step) (cache : TokenCache) (acc acc' : SimAcc) (i : ℕ),
    (simSteps p rr wr cache acc l i).1 = (simSteps p rr wr cache acc' l i).1 := by
  intro l
  induction l with
  | nil => intro cache acc acc' i; simp [simSteps]
  | cons s l ih =>
    intro cache acc acc' i
    simp only [simSteps]
    exact ih _ _ _ _

lemma simSteps_snd_shift (p : Pricing) (rr wr : ℚ) :
    ∀ (l : List Step) (cache : TokenCache) (acc : SimAcc) (i : ℕ),
    (simSteps p rr wr cache acc l i).2
      = acc.add (simSteps p rr wr cache SimAcc.zero l i).2 := by
  intro l
  induction l with
  | nil => intro cache acc i; simp [simSteps, SimAcc.add_zero]
  | cons s l ih =>
    intro cache acc i
    simp only [simSteps]
    conv_lhs => rw [ih]
    conv_rhs => rw [ih]
    rw [← SimAcc.add_assoc]
    congr 1
    cases acc
    simp only [SimAcc.add, SimAcc.zero, SimAcc.mk.injEq]
    refine ⟨by ring, by ring, by ring, by ring, by ring⟩

lemma simTest_shift (p : Pricing) (rr wr : ℚ) (acc : SimAcc) (t : SingleTestResult) :
    simTest p rr wr acc t = acc.add (simTest p rr wr SimAcc.zero t) := by
  cases t with
  | mk steps =>
    cases steps with
    | nil => simp [simTest, SimAcc.add_zero]
    | cons s rest =>
      simp only [simTest]
      conv_lhs => rw [simSteps_snd_shift]
      conv_rhs => rw [simSteps_snd_shift]
      rw [← SimAcc.add_assoc]
      congr 1
      cases acc
      simp only [SimAcc.add, SimAcc.zero, SimAcc.mk.injEq]
      refine ⟨by ring, by ring, by ring, by ring, by ring⟩

lemma foldl_simTest_shift (p : Pricing) (rr wr : ℚ) :
    ∀ (ts : List SingleTestResult) (acc : SimAcc),
    ts.foldl (simTest p rr wr) acc = acc.add (ts.foldl (simTest p rr wr) SimAcc.zero) := by
  intro ts
  induction ts with
  | nil => intro acc; simp [SimAcc.add_zero]
  | cons t ts ih =>
    intro acc
    simp only [List.foldl_cons]
    rw [ih, ih (simTest p rr wr SimAcc.zero t), simTest_shift, SimAcc.add_assoc]

end AiBench

namespace AiBench

lemma simSteps_totalOutput (p : Pricing) (rr wr : ℚ) :
    ∀ (l : List Step) (cache : TokenCache) (acc : SimAcc) (i : ℕ),
    (simSteps p rr wr cache acc l i).2.totalOutputTokens
      = acc.totalOutputTokens + (l.map (fun s => s.usage.outputTokens)).sum := by
  intro l
  induction l with
  | nil => intro cache acc i; simp [simSteps]
  | cons s l ih =>
    intro cache acc i
    simp only [simSteps, List.map_cons, List.sum_cons]
    rw [ih]
    simp only []
    ring

/-- When every step's input is at least the resident context size (the clamp
never fires), the inner loop conserves tokens: hits plus writes grow by
exactly the sum of the step inputs, and the context tracks the last input. -/
lemma simSteps_conserve (p : Pricing) (rr wr : ℚ) :
    ∀ (l : List Step) (cache : TokenCache) (acc : SimAcc) (i : ℕ),
    List.Chain' (· ≤ ·) (cache.currentTokens :: l.map (fun s => s.usage.inputTokens)) →
    (simSteps p rr wr cache acc l i).2.totalCacheHits
        + (simSteps p rr wr cache acc l i).2.totalCacheWriteTokens
      = acc.totalCacheHits + acc.totalCacheWriteTokens
        + (l.map (fun s => s.usage.inputTokens)).sum := by
  intro l
  induction l with
  | nil => intro cache acc i _; simp [simSteps]
  | cons s l ih =>
    intro cache acc i hchain
    rw [List.map_cons, List.chain'_cons] at hchain
    obtain ⟨hle, htail⟩ := hchain
    have hmax : max 0 (s.usage.inputTokens - cache.getCacheStats.currentContextTokens)
        = s.usage.inputTokens - cache.currentTokens := by
      simp only [TokenCache.getCacheStats]
      exact max_eq_right (sub_nonneg.mpr hle)
    have hctx : (cache.addMessage ("step-" ++ toString i)
          (max 0 (s.usage.inputTokens - cache.getCacheStats.currentContextTokens))
          s.usage.outputTokens).currentTokens = s.usage.inputTokens := by
      rw [hmax]
      simp [TokenCache.addMessage]
    simp only [simSteps]
    rw [ih _ _ (i + 1) (by rw [hctx]; exact htail)]
    simp only [TokenCache.getCacheStats] at hmax ⊢
    rw [hmax]
    simp only [List.map_cons, List.sum_cons]
    ring

lemma foldl_tokens (l : List Step) :
    ∀ (a b : ℚ),
    l.foldl
      (fun (acc2 : ℚ × ℚ) step =>
        (acc2.1 + step.usage.inputTokens, acc2.2 + step.usage.outputTokens)) (a, b)
      = (a + (l.map (fun s => s.usage.inputTokens)).sum,
         b + (l.map (fun s => s.usage.outputTokens)).sum) := by
  induction l with
  | nil => intro a b; simp
  | cons s l ih =>
    intro a b
    simp only [List.foldl_cons, List.map_cons, List.sum_cons, ih]
    refine congrArg₂ _ (by ring) (by ring)

end AiBench

namespace AiBench

/-- C2: for every test list and every pricing table in which either
`cacheReadInputTokenCost` or `cacheCreationInputTokenCost` is `undefined`,
`simulateCacheSavings` fails with the configuration error; the result is the
same error constant for every test list, so no test is iterated and no
partial aggregate is produced. -/
theorem claim_C2_missing_cache_rate_fails_fast
    (tests : List SingleTestResult) (p : Pricing)
    (h : p.cacheReadInputTokenCost = none ∨ p.cacheCreationInputTokenCost = none) :
    simulateCacheSavings tests p
      = .error "Cache pricing is required: cacheReadInputTokenCost and cacheCreationInputTokenCost must be defined" := by
  obtain ⟨pi, po, pcr, pcw⟩ := p
  simp only at h
  rcases h with h | h
  · subst h
    simp [simulateCacheSavings]
  · subst h
    cases pcr <;> simp [simulateCacheSavings]

theorem claim_C2_missing_cache_rate_fails_fast_witness :
    simulateCacheSavings [] ⟨1, 1, none, some 1⟩
      = .error "Cache pricing is required: cacheReadInputTokenCost and cacheCreationInputTokenCost must be defined" :=
  claim_C2_missing_cache_rate_fails_fast [] ⟨1, 1, none, some 1⟩ (Or.inl rfl)

/-- C4: a `TokenCache` constructed with a `null` pricing table, or whose
pricing table lacks either cache rate, returns the all-zero breakdown from
`calculateSimulatedCost`, whatever the accumulated state. -/
theorem claim_C4_absent_pricing_all_zero (c : TokenCache)
    (h : c.pricing = none
      ∨ ∃ p, c.pricing = some p
          ∧ (p.cacheReadInputTokenCost = none ∨ p.cacheCreationInputTokenCost = none)) :
    c.calculateSimulatedCost
      = { simulatedCost := 0, cacheReadCost := 0, cacheWriteCost := 0, outputCost := 0 } := by
  rcases h with h | ⟨p, hp, h⟩
  · simp [TokenCache.calculateSimulatedCost, h]
  · obtain ⟨pi, po, pcr, pcw⟩ := p
    simp only at h
    rcases h with h | h
    · subst h
      simp [TokenCache.calculateSimulatedCost, hp]
    · subst h
      cases pcr <;> simp [TokenCache.calculateSimulatedCost, hp]

theorem claim_C4_absent_pricing_all_zero_witness :
    ((TokenCache.create 100 none).addMessage "m" 25 7).calculateSimulatedCost
      = { simulatedCost := 0, cacheReadCost := 0, cacheWriteCost := 0, outputCost := 0 } :=
  claim_C4_absent_pricing_all_zero
    ((TokenCache.create 100 none).addMessage "m" 25 7) (Or.inl rfl)

/-- C5: `addMessage` first credits the pre-call context size to
`totalCachedTokens`, then extends `currentTokens` by the new tokens, adds the
output tokens and appends one log entry; consequently a cache built with
initial tokens `T0` followed by one `addMessage` with `T1` new tokens reports
`totalCachedTokens = T0` and `currentContextTokens = T0 + T1`. -/
theorem claim_C5_addMessage_accounting :
    (∀ (c : TokenCache) (msg : String) (t o : ℚ),
      (c.addMessage msg t o).totalCachedTokens = c.totalCachedTokens + c.currentTokens
      ∧ (c.addMessage msg t o).currentTokens = c.currentTokens + t
      ∧ (c.addMessage msg t o).totalOutputTokens = c.totalOutputTokens + o
      ∧ (c.addMessage msg t o).messages = c.messages ++ [(msg, t)])
    ∧ (∀ (pr : Option Pricing) (T0 T1 o : ℚ) (msg : String),
      ((TokenCache.create T0 pr).addMessage msg T1 o).getCacheStats.totalCachedTokens = T0
      ∧ ((TokenCache.create T0 pr).addMessage msg T1 o).getCacheStats.currentContextTokens
          = T0 + T1) := by
  constructor
  · intro c msg t o
    refine ⟨rfl, rfl, rfl, rfl⟩
  · intro pr T0 T1 o msg
    simp [TokenCache.create, TokenCache.addMessage, TokenCache.getCacheStats]

/-- C6: context size never shrinks: one `addMessage` call with non-negative
new tokens leaves `currentContextTokens` at least its previous value, and a
whole sequence of such calls leaves it at least the starting value. -/
theorem claim_C6_context_monotone :
    (∀ (c : TokenCache) (msg : String) (t o : ℚ), 0 ≤ t →
      c.getCacheStats.currentContextTokens
        ≤ (c.addMessage msg t o).getCacheStats.currentContextTokens)
    ∧ (∀ (c : TokenCache) (calls : List (String × ℚ × ℚ)),
      (∀ x ∈ calls, 0 ≤ x.2.1) →
      c.getCacheStats.currentContextTokens
        ≤ ((calls.foldl (fun st x => st.addMessage x.1 x.2.1 x.2.2) c)).getCacheStats.currentContextTokens) := by
  constructor
  · intro c msg t o ht
    simp only [TokenCache.addMessage, TokenCache.getCacheStats]
    linarith
  · intro c calls
    induction calls generalizing c with
    | nil => intro _; simp
    | cons x calls ih =>
      intro hpos
      simp only [List.foldl_cons]
      refine le_trans ?_ (ih (c.addMessage x.1 x.2.1 x.2.2)
        (fun y hy => hpos y (List.mem_cons_of_mem x hy)))
      simp only [TokenCache.addMessage, TokenCache.getCacheStats]
      have := hpos x (List.mem_cons_self x calls)
      linarith

theorem claim_C6_context_monotone_witness :
    (TokenCache.create 10 none).getCacheStats.currentContextTokens
      ≤ ((TokenCache.create 10 none).addMessage "m" 4 1).getCacheStats.currentContextTokens :=
  claim_C6_context_monotone.1 (TokenCache.create 10 none) "m" 4 1 (by norm_num)

end AiBench

namespace AiBench

/-- C3 counterexample: a pricing table that *defines* both cache rates, one
of them as `0`, falsifies the claimed breakdown: with output rate `1` and
five accumulated output tokens the claim demands `outputCost = 5`, but the
truthiness guard returns the all-zero breakdown. -/
theorem claim_C3_counterexample :
    ((TokenCache.create 0 (some ⟨1, 1, some 0, some 1⟩)).addMessage "m" 0 5).pricing
        = some ⟨1, 1, some 0, some 1⟩
    ∧ (Pricing.cacheReadInputTokenCost ⟨1, 1, some 0, some 1⟩).isSome = true
    ∧ (Pricing.cacheCreationInputTokenCost ⟨1, 1, some 0, some 1⟩).isSome = true
    ∧ ((TokenCache.create 0 (some ⟨1, 1, some 0, some 1⟩)).addMessage "m" 0 5).calculateSimulatedCost.outputCost
        ≠ ((TokenCache.create 0 (some ⟨1, 1, some 0, some 1⟩)).addMessage "m" 0 5).totalOutputTokens
            * (Pricing.outputCostPerToken ⟨1, 1, some 0, some 1⟩) := by
  refine ⟨rfl, rfl, rfl, ?_⟩
  simp [TokenCache.create, TokenCache.addMessage, TokenCache.calculateSimulatedCost]

/-- C3 (amended): for every `TokenCache` whose pricing table is present and
defines both cache rates with *nonzero* values, `calculateSimulatedCost`
returns `cacheReadCost = totalCachedTokens × cacheReadRate`,
`cacheWriteCost = currentContextTokens × cacheWriteRate` (the final
accumulated context size), `outputCost = totalOutputTokens × outputRate`, and
`simulatedCost` equal to their sum. -/
theorem claim_C3_simulated_cost_breakdown (c : TokenCache) (p : Pricing) (rr wr : ℚ)
    (hp : c.pricing = some p)
    (hr : p.cacheReadInputTokenCost = some rr) (hr0 : rr ≠ 0)
    (hw : p.cacheCreationInputTokenCost = some wr) (hw0 : wr ≠ 0) :
    c.calculateSimulatedCost
      = { simulatedCost := c.getCacheStats.totalCachedTokens * rr
            + c.getCacheStats.currentContextTokens * wr
            + c.totalOutputTokens * p.outputCostPerToken
          cacheReadCost := c.getCacheStats.totalCachedTokens * rr
          cacheWriteCost := c.getCacheStats.currentContextTokens * wr
          outputCost := c.totalOutputTokens * p.outputCostPerToken } := by
  simp [TokenCache.calculateSimulatedCost, TokenCache.getCacheStats, hp, hr, hw, hr0, hw0]

theorem claim_C3_simulated_cost_breakdown_witness :
    ((TokenCache.create 10 (some ⟨1, 2, some 3, some 5⟩)).addMessage "m" 4 6).calculateSimulatedCost
      = { simulatedCost := ((TokenCache.create 10 (some ⟨1, 2, some 3, some 5⟩)).addMessage "m" 4 6).getCacheStats.totalCachedTokens * 3
            + ((TokenCache.create 10 (some ⟨1, 2, some 3, some 5⟩)).addMessage "m" 4 6).getCacheStats.currentContextTokens * 5
            + ((TokenCache.create 10 (some ⟨1, 2, some 3, some 5⟩)).addMessage "m" 4 6).totalOutputTokens * 2
          cacheReadCost := ((TokenCache.create 10 (some ⟨1, 2, some 3, some 5⟩)).addMessage "m" 4 6).getCacheStats.totalCachedTokens * 3
          cacheWriteCost := ((TokenCache.create 10 (some ⟨1, 2, some 3, some 5⟩)).addMessage "m" 4 6).getCacheStats.currentContextTokens * 5
          outputCost := ((TokenCache.create 10 (some ⟨1, 2, some 3, some 5⟩)).addMessage "m" 4 6).totalOutputTokens * 2 } :=
  claim_C3_simulated_cost_breakdown
    ((TokenCache.create 10 (some ⟨1, 2, some 3, some 5⟩)).addMessage "m" 4 6)
    ⟨1, 2, some 3, some 5⟩ 3 5 rfl rfl (by norm_num) rfl (by norm_num)

/-- C10: a present pricing table with a cache rate *defined as zero* is
treated by `calculateSimulatedCost` exactly like an absent rate (the guard
tests truthiness), returning the all-zero breakdown, while
`simulateCacheSavings` accepts any defined rates — zero included — without
its configuration error (its guard compares against `undefined` only). -/
theorem claim_C10_zero_rate_guard_divergence :
    (∀ (c : TokenCache) (p : Pricing), c.pricing = some p →
      (p.cacheReadInputTokenCost = some 0 ∨ p.cacheCreationInputTokenCost = some 0) →
      c.calculateSimulatedCost
        = { simulatedCost := 0, cacheReadCost := 0, cacheWriteCost := 0, outputCost := 0 })
    ∧ (∀ (tests : List SingleTestResult) (p : Pricing) (rr wr : ℚ),
      p.cacheReadInputTokenCost = some rr → p.cacheCreationInputTokenCost = some wr →
      ∃ r, simulateCacheSavings tests p = .ok r) := by
  constructor
  · intro c p hp h
    obtain ⟨pi, po, pcr, pcw⟩ := p
    simp only at h
    rcases h with h | h
    · subst h
      cases pcw <;> simp [TokenCache.calculateSimulatedCost, hp]
    · subst h
      cases pcr with
      | none => simp [TokenCache.calculateSimulatedCost, hp]
      | some r => simp [TokenCache.calculateSimulatedCost, hp]
  · intro tests p rr wr hr hw
    obtain ⟨pi, po, pcr, pcw⟩ := p
    simp only at hr hw
    subst hr
    subst hw
    exact ⟨_, rfl⟩

theorem claim_C10_zero_rate_guard_divergence_witness :
    ((TokenCache.create 10 (some ⟨1, 2, some 0, some 5⟩)).addMessage "m" 4 6).calculateSimulatedCost
      = { simulatedCost := 0, cacheReadCost := 0, cacheWriteCost := 0, outputCost := 0 }
    ∧ ∃ r, simulateCacheSavings [] ⟨1, 2, some 0, some 5⟩ = .ok r :=
  ⟨claim_C10_zero_rate_guard_divergence.1
      ((TokenCache.create 10 (some ⟨1, 2, some 0, some 5⟩)).addMessage "m" 4 6)
      ⟨1, 2, some 0, some 5⟩ rfl (Or.inl rfl),
   claim_C10_zero_rate_guard_divergence.2 [] ⟨1, 2, some 0, some 5⟩ 0 5 rfl rfl⟩

/-- C8: with both cache rates defined, the empty test list yields the
all-zero aggregate without error, and a test whose step sequence is empty is
skipped: prepending it leaves the result unchanged. -/
theorem claim_C8_empty_inputs (p : Pricing) (rr wr : ℚ)
    (hr : p.cacheReadInputTokenCost = some rr)
    (hw : p.cacheCreationInputTokenCost = some wr) :
    simulateCacheSavings [] p
      = .ok { simulatedCostWithCache := 0, simulatedInputCost := 0, simulatedOutputCost := 0,
              cacheHits := 0, cacheWriteTokens := 0, outputTokens := 0 }
    ∧ ∀ (ts : List SingleTestResult),
      simulateCacheSavings ({ steps := [] } :: ts) p = simulateCacheSavings ts p := by
  obtain ⟨pi, po, pcr, pcw⟩ := p
  simp only at hr hw
  subst hr
  subst hw
  constructor
  · simp [simulateCacheSavings]
  · intro ts
    simp [simulateCacheSavings, List.foldl_cons, simTest]

theorem claim_C8_empty_inputs_witness :
    simulateCacheSavings [] ⟨1, 2, some 3, some 5⟩
      = .ok { simulatedCostWithCache := 0, simulatedInputCost := 0, simulatedOutputCost := 0,
              cacheHits := 0, cacheWriteTokens := 0, outputTokens := 0 }
    ∧ simulateCacheSavings [{ steps := [] }] ⟨1, 2, some 3, some 5⟩
        = simulateCacheSavings [] ⟨1, 2, some 3, some 5⟩ :=
  ⟨(claim_C8_empty_inputs ⟨1, 2, some 3, some 5⟩ 3 5 rfl rfl).1,
   (claim_C8_empty_inputs ⟨1, 2, some 3, some 5⟩ 3 5 rfl rfl).2 []⟩

end AiBench

namespace AiBench

/-- C1: the growing-context accounting of `simulateCacheSavings`: the single
test with step inputs `[1000, 1500, 2000]` and outputs `[50, 50, 50]` yields
`cacheHits = 2500` and `cacheWriteTokens = 2000` (the first step's full input
is a cache write), and a step whose input is no larger than the resident
context contributes zero — never negative — new write tokens, leaves the
context unchanged, and contributes exactly the pre-step
`currentContextTokens` as its cached portion. -/
theorem claim_C1_growing_context_accounting (p : Pricing) (rr wr : ℚ)
    (hr : p.cacheReadInputTokenCost = some rr)
    (hw : p.cacheCreationInputTokenCost = some wr) :
    (∃ r, simulateCacheSavings
        [{ steps := [⟨⟨1000, 50, 1050, 0⟩⟩, ⟨⟨1500, 50, 1550, 0⟩⟩, ⟨⟨2000, 50, 2050, 0⟩⟩] }] p
        = .ok r ∧ r.cacheHits = 2500 ∧ r.cacheWriteTokens = 2000)
    ∧ (∀ (cache : TokenCache) (acc : SimAcc) (s : Step) (i : ℕ),
      s.usage.inputTokens ≤ cache.getCacheStats.currentContextTokens →
      (simSteps p rr wr cache acc [s] i).2.totalCacheWriteTokens = acc.totalCacheWriteTokens
      ∧ (simSteps p rr wr cache acc [s] i).1.currentTokens = cache.currentTokens
      ∧ (simSteps p rr wr cache acc [s] i).2.totalCacheHits
          = acc.totalCacheHits + cache.getCacheStats.currentContextTokens) := by
  obtain ⟨pi, po, pcr, pcw⟩ := p
  simp only at hr hw
  subst hr
  subst hw
  constructor
  · refine ⟨_, rfl, ?_, ?_⟩ <;>
      simp only [simulateCacheSavings, List.foldl, simTest, simSteps, TokenCache.create,
        TokenCache.addMessage, TokenCache.getCacheStats] <;>
      norm_num [max_def]
  · intro cache acc s i hle
    simp only [TokenCache.getCacheStats] at hle
    have hmax : max 0 (s.usage.inputTokens - cache.getCacheStats.currentContextTokens) = 0 := by
      simp only [TokenCache.getCacheStats]
      exact max_eq_left (by linarith)
    simp only [simSteps]
    rw [hmax]
    simp only [TokenCache.addMessage, TokenCache.getCacheStats]
    refine ⟨by ring, by ring, trivial⟩

theorem claim_C1_growing_context_accounting_witness :
    ∃ r, simulateCacheSavings
        [{ steps := [⟨⟨1000, 50, 1050, 0⟩⟩, ⟨⟨1500, 50, 1550, 0⟩⟩, ⟨⟨2000, 50, 2050, 0⟩⟩] }]
        ⟨1, 2, some 3, some 5⟩
      = .ok r ∧ r.cacheHits = 2500 ∧ r.cacheWriteTokens = 2000 :=
  (claim_C1_growing_context_accounting ⟨1, 2, some 3, some 5⟩ 3 5 rfl rfl).1

/-- C7: the aggregate is additive across test lists: with both cache rates
defined, every field of the simulation of `A ++ B` is the sum of the
corresponding fields for `A` and for `B` — cache state never crosses between
tests. -/
theorem claim_C7_cross_test_additivity (p : Pricing) (rr wr : ℚ)
    (A B : List SingleTestResult)
    (hr : p.cacheReadInputTokenCost = some rr)
    (hw : p.cacheCreationInputTokenCost = some wr) :
    ∃ ra rb rab,
      simulateCacheSavings A p = .ok ra
      ∧ simulateCacheSavings B p = .ok rb
      ∧ simulateCacheSavings (A ++ B) p = .ok rab
      ∧ rab.simulatedCostWithCache = ra.simulatedCostWithCache + rb.simulatedCostWithCache
      ∧ rab.simulatedInputCost = ra.simulatedInputCost + rb.simulatedInputCost
      ∧ rab.simulatedOutputCost = ra.simulatedOutputCost + rb.simulatedOutputCost
      ∧ rab.cacheHits = ra.cacheHits + rb.cacheHits
      ∧ rab.cacheWriteTokens = ra.cacheWriteTokens + rb.cacheWriteTokens
      ∧ rab.outputTokens = ra.outputTokens + rb.outputTokens := by
  obtain ⟨pi, po, pcr, pcw⟩ := p
  simp only at hr hw
  subst hr
  subst hw
  simp only [simulateCacheSavings]
  refine ⟨_, _, _, rfl, rfl, rfl, ?_, ?_, ?_, ?_, ?_, ?_⟩ <;>
    · simp only [List.foldl_append]
      rw [foldl_simTest_shift _ rr wr B]
      simp only [SimAcc.add, SimAcc.zero]
      try ring

end AiBench

namespace AiBench

theorem claim_C7_cross_test_additivity_witness :
    ∃ ra rb rab,
      simulateCacheSavings [{ steps := [⟨⟨10, 5, 15, 0⟩⟩] }] ⟨1, 2, some 3, some 5⟩ = .ok ra
      ∧ simulateCacheSavings [{ steps := [] }, { steps := [⟨⟨20, 1, 21, 0⟩⟩] }] ⟨1, 2, some 3, some 5⟩ = .ok rb
      ∧ simulateCacheSavings ([{ steps := [⟨⟨10, 5, 15, 0⟩⟩] }]
            ++ [{ steps := [] }, { steps := [⟨⟨20, 1, 21, 0⟩⟩] }]) ⟨1, 2, some 3, some 5⟩ = .ok rab
      ∧ rab.simulatedCostWithCache = ra.simulatedCostWithCache + rb.simulatedCostWithCache
      ∧ rab.simulatedInputCost = ra.simulatedInputCost + rb.simulatedInputCost
      ∧ rab.simulatedOutputCost = ra.simulatedOutputCost + rb.simulatedOutputCost
      ∧ rab.cacheHits = ra.cacheHits + rb.cacheHits
      ∧ rab.cacheWriteTokens = ra.cacheWriteTokens + rb.cacheWriteTokens
      ∧ rab.outputTokens = ra.outputTokens + rb.outputTokens :=
  claim_C7_cross_test_additivity ⟨1, 2, some 3, some 5⟩ 3 5
    [{ steps := [⟨⟨10, 5, 15, 0⟩⟩] }]
    [{ steps := [] }, { steps := [⟨⟨20, 1, 21, 0⟩⟩] }] rfl rfl

/-- C9: for a single test whose per-step inputs are non-decreasing, the
simulation conserves tokens: `cacheHits + cacheWriteTokens` equals the sum of
the step inputs — the very total that `calculateTotalCost` reports as
`inputTokens` — and the aggregate `outputTokens` equals the sum of the step
outputs, matching `calculateTotalCost`'s `outputTokens`. -/
theorem claim_C9_token_conservation (p : Pricing) (rr wr : ℚ) (test : SingleTestResult)
    (hr : p.cacheReadInputTokenCost = some rr)
    (hw : p.cacheCreationInputTokenCost = some wr)
    (hmono : List.Chain' (· ≤ ·) (test.steps.map (fun s => s.usage.inputTokens))) :
    ∃ r, simulateCacheSavings [test] p = .ok r
      ∧ r.cacheHits + r.cacheWriteTokens = (test.steps.map (fun s => s.usage.inputTokens)).sum
      ∧ r.cacheHits + r.cacheWriteTokens = (calculateTotalCost [test] p).inputTokens
      ∧ r.outputTokens = (test.steps.map (fun s => s.usage.outputTokens)).sum
      ∧ r.outputTokens = (calculateTotalCost [test] p).outputTokens := by
  obtain ⟨pi, po, pcr, pcw⟩ := p
  simp only at hr hw
  subst hr
  subst hw
  have hci : (calculateTotalCost [test] ⟨pi, po, some rr, some wr⟩).inputTokens
      = (test.steps.map (fun s => s.usage.inputTokens)).sum := by
    simp only [calculateTotalCost, List.foldl_cons, List.foldl_nil]
    rw [foldl_tokens]
    simp
  have hco : (calculateTotalCost [test] ⟨pi, po, some rr, some wr⟩).outputTokens
      = (test.steps.map (fun s => s.usage.outputTokens)).sum := by
    simp only [calculateTotalCost, List.foldl_cons, List.foldl_nil]
    rw [foldl_tokens]
    simp
  rw [hci, hco]
  obtain ⟨steps⟩ := test
  cases steps with
  | nil =>
    refine ⟨_, rfl, ?_, ?_, ?_, ?_⟩ <;>
      simp [simulateCacheSavings, simTest]
  | cons s0 rest =>
    simp only [List.map_cons, List.chain'_cons'] at hmono
    simp only [simulateCacheSavings, List.foldl_cons, List.foldl_nil, simTest]
    have hchain : List.Chain' (· ≤ ·)
        (((TokenCache.create s0.usage.inputTokens
            (some (⟨pi, po, some rr, some wr⟩ : Pricing))).addMessage "step-0" 0
            s0.usage.outputTokens).currentTokens
          :: rest.map (fun s => s.usage.inputTokens)) := by
      simp only [TokenCache.create, TokenCache.addMessage, add_zero]
      rw [List.chain'_cons']
      exact hmono
    have hhits := simSteps_conserve (⟨pi, po, some rr, some wr⟩ : Pricing) rr wr rest
      ((TokenCache.create s0.usage.inputTokens
          (some (⟨pi, po, some rr, some wr⟩ : Pricing))).addMessage "step-0" 0
          s0.usage.outputTokens)
      ⟨0, 0 + s0.usage.inputTokens, 0 + s0.usage.outputTokens,
        0 + s0.usage.inputTokens * wr, 0 + s0.usage.outputTokens * po⟩ 1 hchain
    have hout := simSteps_totalOutput (⟨pi, po, some rr, some wr⟩ : Pricing) rr wr rest
      ((TokenCache.create s0.usage.inputTokens
          (some (⟨pi, po, some rr, some wr⟩ : Pricing))).addMessage "step-0" 0
          s0.usage.outputTokens)
      ⟨0, 0 + s0.usage.inputTokens, 0 + s0.usage.outputTokens,
        0 + s0.usage.inputTokens * wr, 0 + s0.usage.outputTokens * po⟩ 1
    dsimp only at hhits hout
    refine ⟨_, rfl, ?_, ?_, ?_, ?_⟩ <;> dsimp only <;>
      simp only [List.map_cons, List.sum_cons] <;> linarith [hhits, hout]

end AiBench

namespace AiBench

theorem claim_C9_token_conservation_witness :
    ∃ r, simulateCacheSavings [{ steps := [⟨⟨10, 1, 11, 0⟩⟩, ⟨⟨20, 2, 22, 0⟩⟩] }]
        ⟨1, 2, some 3, some 5⟩ = .ok r
      ∧ r.cacheHits + r.cacheWriteTokens
          = (({ steps := [⟨⟨10, 1, 11, 0⟩⟩, ⟨⟨20, 2, 22, 0⟩⟩] } : SingleTestResult).steps.map
              (fun s => s.usage.inputTokens)).sum
      ∧ r.cacheHits + r.cacheWriteTokens
          = (calculateTotalCost [{ steps := [⟨⟨10, 1, 11, 0⟩⟩, ⟨⟨20, 2, 22, 0⟩⟩] }]
              ⟨1, 2, some 3, some 5⟩).inputTokens
      ∧ r.outputTokens
          = (({ steps := [⟨⟨10, 1, 11, 0⟩⟩, ⟨⟨20, 2, 22, 0⟩⟩] } : SingleTestResult).steps.map
              (fun s => s.usage.outputTokens)).sum
      ∧ r.outputTokens
          = (calculateTotalCost [{ steps := [⟨⟨10, 1, 11, 0⟩⟩, ⟨⟨20, 2, 22, 0⟩⟩] }]
              ⟨1, 2, some 3, some 5⟩).outputTokens :=
  claim_C9_token_conservation ⟨1, 2, some 3, some 5⟩ 3 5
    { steps := [⟨⟨10, 1, 11, 0⟩⟩, ⟨⟨20, 2, 22, 0⟩⟩] } rfl rfl
    (by norm_num [List.chain'_cons, List.chain'_singleton])

end AiBench
